import Mathlib

/-!
Shallow embedding of `src/cpu.rs` from the rs_nes repository: a 6502-family
CPU core with a flat memory array, addressing-mode resolution, status-flag
computation and a fetch-decode-execute loop.

Machine integers are modelled as `Nat` with explicit `% 256` (u8) and
`% 65536` (u16) at the points where the Rust code performs wrapping
arithmetic or type casts.  The backing memory array `[u8; 0xFFFF]` is
modelled as a function `Nat → Nat` together with an explicit bounds check in
the byte read/write primitives: an index outside `0 ..< 0xFFFF` panics in
Rust, which we model as an error result.  A value stored in the array is a
`u8`, so reads reduce the stored value `% 256`.
-/

namespace RsNes

/-- The length of the backing array `memory: [u8; 0xFFFF]` in `struct CPU`.
Note this is 0xFFFF = 65535 bytes, not the full 65536-byte 16-bit space. -/
def MEMORY_LEN : Nat := 0xFFFF

/-- Embeds `pub enum AddressingMode` from cpu.rs. -/
inductive AddressingMode where
  | Immediate
  | ZeroPage
  | ZeroPageX
  | ZeroPageY
  | Absolute
  | AbsoluteX
  | AbsoluteY
  | IndirectX
  | IndirectY
  | NoneAddressing
deriving DecidableEq, Repr

/-- The fatal conditions the Rust code can hit: a `panic!` for an
unsupported addressing mode, an out-of-bounds array index panic, the
`.expect` failure for an opcode byte missing from the table, the `todo!()`
arm for a recognized but unimplemented opcode, and the slice panic in
`load` when the program does not fit. -/
inductive Fault where
  | unsupportedMode (mode : AddressingMode)
  | memOutOfBounds (address : Nat)
  | unrecognizedOpcode (code : Nat)
  | notImplemented
  | loadOutOfRange
deriving DecidableEq, Repr

/-- Embeds `pub struct CPU` from cpu.rs.  `memory` models the `[u8; 0xFFFF]`
array: only indices `< MEMORY_LEN` are ever observed, through `mem_read` /
`mem_write`, which reduce stored values mod 256 (the array holds `u8`). -/
structure CPU where
  register_a : Nat
  register_x : Nat
  register_y : Nat
  status : Nat
  program_counter : Nat
  memory : Nat → Nat

/-- Embeds `CPU::new()`: all registers zero, memory zero-filled. -/
def CPU.new : CPU :=
  { register_a := 0
    register_x := 0
    register_y := 0
    status := 0
    program_counter := 0
    memory := fun _ => 0 }

/-- Embeds `fn mem_read(&self, address: u16) -> u8`: `self.memory[address as usize]`.
Indexing the 0xFFFF-byte array out of range panics in Rust, modelled as an
error. -/
def mem_read (cpu : CPU) (address : Nat) : Except Fault Nat :=
  if address < MEMORY_LEN then .ok (cpu.memory address % 256)
  else .error (.memOutOfBounds address)

/-- Embeds `fn mem_write(&mut self, address: u16, data: u8)`:
`self.memory[address as usize] = data`. -/
def mem_write (cpu : CPU) (address data : Nat) : Except Fault CPU :=
  if address < MEMORY_LEN then
    .ok { cpu with memory := fun a => if a = address then data % 256 else cpu.memory a }
  else .error (.memOutOfBounds address)

/-- Embeds `fn mem_read_u16(&self, position: u16) -> u16` from the `Mem` trait:
low byte at `position`, high byte at `position + 1`, assembled as
`(hi << 8) | lo`. -/
def mem_read_u16 (cpu : CPU) (position : Nat) : Except Fault Nat :=
  match mem_read cpu position with
  | .error f => .error f
  | .ok lo =>
    match mem_read cpu (position + 1) with
    | .error f => .error f
    | .ok hi => .ok ((hi <<< 8) ||| lo)

/-- Embeds `fn mem_write_u16(&mut self, position: u16, data: u16)` from the `Mem`
trait: `hi = (data >> 8) as u8`, `lo = (data & 0xff) as u8`, low byte stored
first at `position`, high byte at `position + 1`. -/
def mem_write_u16 (cpu : CPU) (position data : Nat) : Except Fault CPU :=
  let hi := (data >>> 8) % 256
  let lo := data &&& 0xff
  match mem_write cpu position lo with
  | .error f => .error f
  | .ok cpu1 => mem_write cpu1 (position + 1) hi

/-- Embeds `pub fn write_memory(&mut self, address: u16, data: u8)`: the public
single-byte poke accessor, delegating to `mem_write`. -/
def write_memory (cpu : CPU) (address data : Nat) : Except Fault CPU :=
  mem_write cpu address data

/-- Embeds `fn get_operand_address(&self, mode: &AddressingMode) -> u16`.
`wrapping_add` on `u8` is `% 256`, on `u16` is `% 65536`; the casts
`as u16` of `u8` values are value-preserving. -/
def get_operand_address (cpu : CPU) (mode : AddressingMode) : Except Fault Nat :=
  match mode with
  | .Immediate => .ok cpu.program_counter
  | .ZeroPage =>
    match mem_read cpu cpu.program_counter with
    | .error f => .error f
    | .ok b => .ok b
  | .Absolute => mem_read_u16 cpu cpu.program_counter
  | .ZeroPageX =>
    match mem_read cpu cpu.program_counter with
    | .error f => .error f
    | .ok position => .ok ((position + cpu.register_x) % 256)
  | .ZeroPageY =>
    match mem_read cpu cpu.program_counter with
    | .error f => .error f
    | .ok position => .ok ((position + cpu.register_y) % 256)
  | .AbsoluteX =>
    match mem_read_u16 cpu cpu.program_counter with
    | .error f => .error f
    | .ok base => .ok ((base + cpu.register_x) % 65536)
  | .AbsoluteY =>
    match mem_read_u16 cpu cpu.program_counter with
    | .error f => .error f
    | .ok base => .ok ((base + cpu.register_y) % 65536)
  | .IndirectX =>
    match mem_read cpu cpu.program_counter with
    | .error f => .error f
    | .ok base =>
      let pointer := (base + cpu.register_x) % 256
      match mem_read cpu pointer with
      | .error f => .error f
      | .ok lo =>
        match mem_read cpu ((pointer + 1) % 256) with
        | .error f => .error f
        | .ok hi => .ok ((hi <<< 8) ||| lo)
  | .IndirectY =>
    match mem_read cpu cpu.program_counter with
    | .error f => .error f
    | .ok base =>
      match mem_read cpu base with
      | .error f => .error f
      | .ok lo =>
        match mem_read cpu ((base + 1) % 256) with
        | .error f => .error f
        | .ok hi =>
          let deref_base := (hi <<< 8) ||| lo
          .ok ((deref_base + cpu.register_y) % 65536)
  | .NoneAddressing => .error (.unsupportedMode .NoneAddressing)

/-- Embeds `fn update_zero_and_negative_flags(&mut self, result: u8)`: sets or
clears the zero flag (bit 1) from `result == 0` and the negative flag
(bit 7) from `result & 0b1000_0000`. -/
def update_zero_and_negative_flags (cpu : CPU) (result : Nat) : CPU :=
  let status1 :=
    if result = 0 then cpu.status ||| 0b0000010
    else cpu.status &&& 0b11111101
  let status2 :=
    if result &&& 0b10000000 ≠ 0 then status1 ||| 0b10000000
    else status1 &&& 0b01111111
  { cpu with status := status2 }

/-- Embeds `fn lda(&mut self, mode: &AddressingMode)`. -/
def lda (cpu : CPU) (mode : AddressingMode) : Except Fault CPU :=
  match get_operand_address cpu mode with
  | .error f => .error f
  | .ok address =>
    match mem_read cpu address with
    | .error f => .error f
    | .ok value =>
      let cpu1 := { cpu with register_a := value }
      .ok (update_zero_and_negative_flags cpu1 cpu1.register_a)

/-- Embeds `fn sta(&mut self, mode: &AddressingMode)`. -/
def sta (cpu : CPU) (mode : AddressingMode) : Except Fault CPU :=
  match get_operand_address cpu mode with
  | .error f => .error f
  | .ok address => mem_write cpu address cpu.register_a

/-- Embeds `fn tax(&mut self)`. -/
def tax (cpu : CPU) : CPU :=
  let cpu1 := { cpu with register_x := cpu.register_a }
  update_zero_and_negative_flags cpu1 cpu1.register_x

/-- Embeds `fn inx(&mut self)`: `self.register_x = self.register_x.wrapping_add(1)`. -/
def inx (cpu : CPU) : CPU :=
  let cpu1 := { cpu with register_x := (cpu.register_x + 1) % 256 }
  update_zero_and_negative_flags cpu1 cpu1.register_x

/-- An entry of the opcode metadata table: the opcode byte, the total
instruction byte length, and the addressing mode. -/
structure OpCode where
  code : Nat
  len : Nat
  mode : AddressingMode
deriving DecidableEq, Repr

/-- Modelled from the spec: the external opcode metadata table
(`crate::opcodes::OPCODES_MAP`), which is consumed, not owned, by this core
and is absent from the source tree.  The spec states it maps each opcode
byte to its addressing mode and total instruction byte length, and that
every opcode dispatched by `run` has an entry.  The entries below are the
standard 6502 values for the opcodes the core dispatches (the eight LDA
variants, seven STA variants, TAX, INX and BRK); the modes match the
handlers each opcode is dispatched to and the lengths are one opcode byte
plus the operand bytes of the mode. -/
def OPCODES_MAP (code : Nat) : Option OpCode :=
  match code with
  | 0xa9 => some ⟨0xa9, 2, .Immediate⟩
  | 0xa5 => some ⟨0xa5, 2, .ZeroPage⟩
  | 0xb5 => some ⟨0xb5, 2, .ZeroPageX⟩
  | 0xad => some ⟨0xad, 3, .Absolute⟩
  | 0xbd => some ⟨0xbd, 3, .AbsoluteX⟩
  | 0xb9 => some ⟨0xb9, 3, .AbsoluteY⟩
  | 0xa1 => some ⟨0xa1, 2, .IndirectX⟩
  | 0xb1 => some ⟨0xb1, 2, .IndirectY⟩
  | 0x85 => some ⟨0x85, 2, .ZeroPage⟩
  | 0x95 => some ⟨0x95, 2, .ZeroPageX⟩
  | 0x8d => some ⟨0x8d, 3, .Absolute⟩
  | 0x9d => some ⟨0x9d, 3, .AbsoluteX⟩
  | 0x99 => some ⟨0x99, 3, .AbsoluteY⟩
  | 0x81 => some ⟨0x81, 2, .IndirectX⟩
  | 0x91 => some ⟨0x91, 2, .IndirectY⟩
  | 0xaa => some ⟨0xaa, 1, .NoneAddressing⟩
  | 0xe8 => some ⟨0xe8, 1, .NoneAddressing⟩
  | 0x00 => some ⟨0x00, 1, .NoneAddressing⟩
  | _ => none

/-- Outcome of one instruction handler inside the loop body of `run`:
either the loop continues (`next`) or the `0x00` arm executed `return`
(`brk`). -/
inductive StepOut where
  | next (cpu : CPU)
  | brk (cpu : CPU)

/-- The `match code` dispatch inside `run`'s loop body. The `_ => todo!()`
arm is the `notImplemented` fault. -/
def dispatch (code : Nat) (mode : AddressingMode) (cpu : CPU) : Except Fault StepOut :=
  match code with
  | 0xa9 | 0xa5 | 0xb5 | 0xad | 0xbd | 0xb9 | 0xa1 | 0xb1 =>
    match lda cpu mode with
    | .error f => .error f
    | .ok c => .ok (.next c)
  | 0x85 | 0x95 | 0x8d | 0x9d | 0x99 | 0x81 | 0x91 =>
    match sta cpu mode with
    | .error f => .error f
    | .ok c => .ok (.next c)
  | 0xaa => .ok (.next (tax cpu))
  | 0xe8 => .ok (.next (inx cpu))
  | 0x00 => .ok (.brk cpu)
  | _ => .error .notImplemented

/-- Outcome of one iteration of the loop in `run`. -/
inductive StepResult where
  | cont (cpu : CPU)
  | halt (cpu : CPU)
  | fault (f : Fault)

/-- One iteration of the loop in `pub fn run(&mut self)`: fetch the opcode
byte, advance the program counter by one, record it, look the opcode up in
the table, dispatch, then advance the program counter by `len - 1` exactly
when the handler left it at the recorded value. -/
def step (cpu : CPU) : StepResult :=
  match mem_read cpu cpu.program_counter with
  | .error f => .fault f
  | .ok code =>
    let cpu1 := { cpu with program_counter := (cpu.program_counter + 1) % 65536 }
    let program_counter_state := cpu1.program_counter
    match OPCODES_MAP code with
    | none => .fault (.unrecognizedOpcode code)
    | some opcode =>
      match dispatch code opcode.mode cpu1 with
      | .error f => .fault f
      | .ok (.brk c) => .halt c
      | .ok (.next c) =>
        if program_counter_state = c.program_counter then
          .cont { c with program_counter := (c.program_counter + (opcode.len - 1)) % 65536 }
        else .cont c

/-- Outcome of a whole `run`: normal termination through the BRK arm,
a fatal condition, or (an artifact of the shallow embedding only) the fuel
bound was reached before either. -/
inductive RunResult where
  | halted (cpu : CPU)
  | fault (f : Fault)
  | outOfFuel

/-- Embeds `pub fn run(&mut self)`: iterate `step` up to `fuel` times. -/
def runFuel : Nat → CPU → RunResult
  | 0, _ => .outOfFuel
  | fuel + 1, cpu =>
    match step cpu with
    | .halt c => .halted c
    | .fault f => .fault f
    | .cont c => runFuel fuel c

/-- Embeds `pub fn load(&mut self, program: Vec<u8>)`: copy the program into
memory at 0x8000 and write the reset vector 0xFFFC with 0x8000.  The slice
copy panics if the program overruns the memory array. -/
def load (cpu : CPU) (program : List Nat) : Except Fault CPU :=
  if 0x8000 + program.length ≤ MEMORY_LEN then
    let mem1 := fun a =>
      if 0x8000 ≤ a ∧ a < 0x8000 + program.length then program.getD (a - 0x8000) 0 % 256
      else cpu.memory a
    mem_write_u16 { cpu with memory := mem1 } 0xFFFC 0x8000
  else .error .loadOutOfRange

/-- Embeds `pub fn reset(&mut self)`: zero the registers and flags, then load the
program counter from the reset vector at 0xFFFC. -/
def reset (cpu : CPU) : Except Fault CPU :=
  let cpu1 := { cpu with register_a := 0, register_x := 0, register_y := 0, status := 0 }
  match mem_read_u16 cpu1 0xFFFC with
  | .error f => .error f
  | .ok pc => .ok { cpu1 with program_counter := pc }

/-- Embeds `pub fn load_and_run(&mut self, program: Vec<u8>)`: `load`, `reset`,
`run` in sequence. -/
def load_and_run (fuel : Nat) (cpu : CPU) (program : List Nat) : RunResult :=
  match load cpu program with
  | .error f => .fault f
  | .ok c1 =>
    match reset c1 with
    | .error f => .fault f
    | .ok c2 => runFuel fuel c2

/-- The final CPU of a normally halted run, if any. -/
def RunResult.cpuOf : RunResult → Option CPU
  | .halted c => some c
  | _ => none

/-- Concrete machine used to witness the zero-page-indexed resolution
theorem: operand byte 0xF0 everywhere, X = 0x20, Y = 0x05. -/
def zpCpu : CPU :=
  { CPU.new with memory := fun _ => 0xF0, register_x := 0x20, register_y := 0x05 }

/-- Concrete machine used to witness the indirect-mode resolution theorem:
operand byte 0xF0 everywhere, X = 0x20, Y = 0x05 (the pointer computation
0xF0 + 0x20 wraps past 0xFF). -/
def indCpu : CPU :=
  { CPU.new with memory := fun _ => 0xF0, register_x := 0x20, register_y := 0x05 }

/-- Concrete machine used to witness the flag-updater theorem: a status
byte with the untouched bits 0, 2, 4, 6 set. -/
def flagCpu : CPU := { CPU.new with status := 0x55 }

/- ------------------------------------------------------------------ -/
/- Helper lemmas -/

theorem or_shift_byte (hi lo : Nat) (h : lo < 256) :
    (hi <<< 8) ||| lo = hi * 256 + lo := by
  have h2 : lo < 2 ^ 8 := by rw [show (2 : Nat) ^ 8 = 256 by norm_num]; exact h
  calc (hi <<< 8) ||| lo = 2 ^ 8 * hi ||| lo := by rw [Nat.shiftLeft_eq, Nat.mul_comm]
    _ = 2 ^ 8 * hi + lo := (Nat.mul_add_lt_is_or h2 hi).symm
    _ = hi * 256 + lo := by rw [Nat.mul_comm]

theorem mem_read_of_lt (cpu : CPU) (a : Nat) (h : a < MEMORY_LEN) :
    mem_read cpu a = .ok (cpu.memory a % 256) := by
  simp [mem_read, h]

theorem mem_read_ok_bound {cpu : CPU} {a b : Nat}
    (h : mem_read cpu a = .ok b) : a < MEMORY_LEN ∧ b = cpu.memory a % 256 ∧ b < 256 := by
  unfold mem_read at h
  split at h
  · rename_i hlt
    injection h with hb
    exact ⟨hlt, hb.symm, by omega⟩
  · simp_all

/- ------------------------------------------------------------------ -/
/- Claim theorems -/

/-- C1: the claim states that every address 0x0000 through 0xFFFF inclusive
is backed by the byte array so byte reads and writes always succeed, but
the backing array `memory: [u8; 0xFFFF]` has only 0xFFFF = 65535 elements:
a read or write at address 0xFFFF indexes out of bounds (a panic in the
Rust code, an error here), while the last backed address 0xFFFE reads
fine.  This evaluates the embedded primitives at the failing input. -/
theorem memory_misses_last_address :
    mem_read CPU.new 0xFFFF = .error (.memOutOfBounds 0xFFFF)
    ∧ mem_write CPU.new 0xFFFF 0xAB = .error (.memOutOfBounds 0xFFFF)
    ∧ mem_read CPU.new 0xFFFE = .ok 0 :=
  ⟨rfl, rfl, rfl⟩

/-- C6: after `load_and_run` with [0xA9, 0x05, 0x00] the accumulator is 5
with zero and negative flags clear; with [0xA9, 0x00, 0x00] the zero flag
is set; with [0xA9, 0xFF, 0x00] the negative flag is set.  The zero flag
is status bit 1, the negative flag status bit 7. -/
theorem lda_flag_scenarios :
    ((load_and_run 10 CPU.new [0xA9, 0x05, 0x00]).cpuOf.map fun c => c.register_a) = some 5
    ∧ ((load_and_run 10 CPU.new [0xA9, 0x05, 0x00]).cpuOf.map fun c => c.status.testBit 1)
        = some false
    ∧ ((load_and_run 10 CPU.new [0xA9, 0x05, 0x00]).cpuOf.map fun c => c.status.testBit 7)
        = some false
    ∧ ((load_and_run 10 CPU.new [0xA9, 0x00, 0x00]).cpuOf.map fun c => c.status.testBit 1)
        = some true
    ∧ ((load_and_run 10 CPU.new [0xA9, 0xFF, 0x00]).cpuOf.map fun c => c.status.testBit 7)
        = some true := by
  decide

/-- C7, counterexample: starting from register X = 0xFF, `load_and_run`
with [0xE8, 0xE8, 0x00] does NOT leave X = 0x01 — `reset()` zeroes X
before execution, so the two increments produce 2, not a wrap of 0xFF. -/
theorem inx_from_ff_not_one :
    ¬ (((load_and_run 10 { CPU.new with register_x := 0xFF } [0xE8, 0xE8, 0x00]).cpuOf.map
        fun c => c.register_x) = some 0x01) := by
  decide

/-- C7, amended: after `load_and_run` with [0xE8, 0xE8, 0x00], register X
equals 0x02 and the zero flag is clear — even when X was 0xFF beforehand,
because `reset()` zeroes X before the program runs, so the two increments
go 0x00 to 0x01 to 0x02 with no wraparound. -/
theorem inx_twice_after_reset :
    ((load_and_run 10 { CPU.new with register_x := 0xFF } [0xE8, 0xE8, 0x00]).cpuOf.map
        fun c => c.register_x) = some 0x02
    ∧ ((load_and_run 10 { CPU.new with register_x := 0xFF } [0xE8, 0xE8, 0x00]).cpuOf.map
        fun c => c.status.testBit 1) = some false := by
  decide

/-- C3: resolving ZeroPageX / ZeroPageY yields (operand byte + index
register) mod 256, an address whose high byte is zero (division by 256
gives 0) even when the 8-bit sum overflows 255. -/
theorem zero_page_indexed_wraps (cpu : CPU) (b : Nat)
    (h : mem_read cpu cpu.program_counter = .ok b) :
    get_operand_address cpu .ZeroPageX = .ok ((b + cpu.register_x) % 256)
    ∧ get_operand_address cpu .ZeroPageY = .ok ((b + cpu.register_y) % 256)
    ∧ (b + cpu.register_x) % 256 / 256 = 0
    ∧ (b + cpu.register_y) % 256 / 256 = 0 := by
  refine ⟨?_, ?_, ?_, ?_⟩
  · simp [get_operand_address, h]
  · simp [get_operand_address, h]
  · exact Nat.div_eq_of_lt (Nat.mod_lt _ (by norm_num))
  · exact Nat.div_eq_of_lt (Nat.mod_lt _ (by norm_num))

/-- Witness for C3 at a concrete machine: operand byte 0xF0, X = 0x20
(sum 0x110 wraps to 0x10), Y = 0x05. -/
theorem zero_page_indexed_wraps_witness :
    mem_read zpCpu zpCpu.program_counter = .ok 0xF0
    ∧ (get_operand_address zpCpu .ZeroPageX = .ok ((0xF0 + zpCpu.register_x) % 256)
       ∧ get_operand_address zpCpu .ZeroPageY = .ok ((0xF0 + zpCpu.register_y) % 256)
       ∧ (0xF0 + zpCpu.register_x) % 256 / 256 = 0
       ∧ (0xF0 + zpCpu.register_y) % 256 / 256 = 0) :=
  ⟨rfl, zero_page_indexed_wraps zpCpu 0xF0 rfl⟩

/-- C9: `write_word` then `read_word` round-trips every 16-bit value at
every address whose successor is still in range of the backing array; the
word operations are built from the byte primitives only. -/
theorem word_write_read_roundtrip (cpu : CPU) (addr v : Nat)
    (h1 : addr + 1 < MEMORY_LEN) (h2 : v < 65536) :
    ((mem_write_u16 cpu addr v).bind fun c => mem_read_u16 c addr) = .ok v := by
  have ha : addr < MEMORY_LEN := by omega
  have hand : v &&& 0xff = v % 256 := by
    have h8 := Nat.and_pow_two_sub_one_eq_mod v 8
    norm_num at h8
    exact h8
  have hshift : v >>> 8 = v / 256 := by
    rw [Nat.shiftRight_eq_div_pow]
  have hdiv : v / 256 < 256 := by omega
  have hne : addr ≠ addr + 1 := by omega
  simp only [mem_write_u16, mem_write, ha, h1, if_pos, Except.bind, mem_read_u16, mem_read,
    hne, if_false, if_true, hand, hshift]
  rw [show v / 256 % 256 % 256 % 256 = v / 256 by omega,
      show v % 256 % 256 % 256 = v % 256 by omega,
      or_shift_byte _ _ (by omega)]
  congr 1
  omega

/-- Witness for C9 at a concrete machine, address and value. -/
theorem word_write_read_roundtrip_witness :
    (0x10 + 1 < MEMORY_LEN ∧ 0xABCD < 65536)
    ∧ ((mem_write_u16 CPU.new 0x10 0xABCD).bind fun c => mem_read_u16 c 0x10) = .ok 0xABCD :=
  ⟨⟨by decide, by decide⟩,
   word_write_read_roundtrip CPU.new 0x10 0xABCD (by decide) (by decide)⟩

/-- C4: IndirectX resolution computes pointer p = (operand byte + X) mod
256 and returns the little-endian word with low byte memory[p] and high
byte memory[(p + 1) mod 256]; IndirectY reads low byte memory[operand] and
high byte memory[(operand + 1) mod 256], assembles them little-endian and
adds Y with 16-bit wraparound.  All pointer arithmetic and the high-byte
fetch wrap within the zero page.  (A stored byte is its array cell mod
256.) -/
theorem indirect_modes_wrap (cpu : CPU) (b : Nat)
    (h : mem_read cpu cpu.program_counter = .ok b) :
    get_operand_address cpu .IndirectX =
      .ok (cpu.memory (((b + cpu.register_x) % 256 + 1) % 256) % 256 * 256
            + cpu.memory ((b + cpu.register_x) % 256) % 256)
    ∧ get_operand_address cpu .IndirectY =
      .ok ((cpu.memory ((b + 1) % 256) % 256 * 256 + cpu.memory b % 256
            + cpu.register_y) % 65536) := by
  obtain ⟨hpc, hbv, hblt⟩ := mem_read_ok_bound h
  have h256 : ∀ n : Nat, n % 256 < MEMORY_LEN := by
    intro n
    have := Nat.mod_lt n (show 0 < 256 by norm_num)
    unfold MEMORY_LEN
    omega
  have hbm : b < MEMORY_LEN := by unfold MEMORY_LEN; omega
  constructor
  · simp only [get_operand_address, h, mem_read_of_lt _ _ (h256 (b + cpu.register_x)),
      mem_read_of_lt _ _ (h256 ((b + cpu.register_x) % 256 + 1))]
    rw [or_shift_byte _ _ (Nat.mod_lt _ (by norm_num))]
  · simp only [get_operand_address, h, mem_read_of_lt _ _ hbm,
      mem_read_of_lt _ _ (h256 (b + 1))]
    rw [or_shift_byte _ _ (Nat.mod_lt _ (by norm_num))]

/-- Witness for C4 at a concrete machine: operand byte 0xF0, X = 0x20
(the pointer computation 0xF0 + 0x20 wraps to 0x10), Y = 0x05. -/
theorem indirect_modes_wrap_witness :
    mem_read indCpu indCpu.program_counter = .ok 0xF0
    ∧ (get_operand_address indCpu .IndirectX =
        .ok (indCpu.memory (((0xF0 + indCpu.register_x) % 256 + 1) % 256) % 256 * 256
              + indCpu.memory ((0xF0 + indCpu.register_x) % 256) % 256)
       ∧ get_operand_address indCpu .IndirectY =
        .ok ((indCpu.memory ((0xF0 + 1) % 256) % 256 * 256 + indCpu.memory 0xF0 % 256
              + indCpu.register_y) % 65536)) :=
  ⟨rfl, indirect_modes_wrap indCpu 0xF0 rfl⟩

/- Ground status-register bit facts used by the flag-updater theorem. -/

theorem testBit_two_ne (i : Nat) (h8 : i < 8) (h1 : i ≠ 1) :
    Nat.testBit 2 i = false := by
  interval_cases i <;> first | decide | simp at h1

theorem testBit_128_ne (i : Nat) (h8 : i < 8) (h7 : i ≠ 7) :
    Nat.testBit 128 i = false := by
  interval_cases i <;> first | decide | simp at h7

theorem testBit_253_ne (i : Nat) (h8 : i < 8) (h1 : i ≠ 1) :
    Nat.testBit 253 i = true := by
  interval_cases i <;> first | decide | simp at h1

theorem testBit_127_ne (i : Nat) (h8 : i < 8) (h7 : i ≠ 7) :
    Nat.testBit 127 i = true := by
  interval_cases i <;> first | decide | simp at h7

/-- The flag updater keeps the status register inside eight bits. -/
theorem update_flags_status_lt (cpu : CPU) (result : Nat) (hs : cpu.status < 256) :
    (update_zero_and_negative_flags cpu result).status < 256 := by
  have h256 : (256 : Nat) = 2 ^ 8 := by norm_num
  simp only [update_zero_and_negative_flags]
  split <;> split <;>
    first
    | exact lt_of_le_of_lt Nat.and_le_right (by norm_num)
    | (rw [h256] at hs ⊢
       first
       | exact Nat.or_lt_two_pow (Nat.or_lt_two_pow hs (by norm_num)) (by norm_num)
       | exact Nat.or_lt_two_pow (lt_of_le_of_lt Nat.and_le_left hs) (by norm_num))

/-- The branch condition of the negative-flag update is exactly bit 7 of
the result. -/
theorem and_128_testBit (result : Nat) :
    (result &&& 128 ≠ 0) ↔ result.testBit 7 = true := by
  rw [show (128 : Nat) = 2 ^ 7 by norm_num, Nat.and_two_pow]
  cases hb : result.testBit 7 <;> simp [hb]

/-- C5: for every 8-bit result and prior status byte, the flag updater
sets the zero flag (bit 1) exactly when the result is 0, sets the negative
flag (bit 7) exactly when bit 7 of the result is set, and leaves every
other status bit unchanged. -/
theorem update_flags_bits (cpu : CPU) (result : Nat)
    (hr : result < 256) (hs : cpu.status < 256) :
    ((update_zero_and_negative_flags cpu result).status.testBit 1 = true ↔ result = 0)
    ∧ (update_zero_and_negative_flags cpu result).status.testBit 7 = result.testBit 7
    ∧ ∀ i, i ≠ 1 → i ≠ 7 →
        (update_zero_and_negative_flags cpu result).status.testBit i
          = cpu.status.testBit i := by
  refine ⟨?_, ?_, ?_⟩
  · by_cases h0 : result = 0
    · have hv : result &&& 128 = 0 := by subst h0; decide
      simp only [update_zero_and_negative_flags, h0, if_true, hv, ne_eq,
        not_true_eq_false, if_false]
      simp [Nat.testBit_or, Nat.testBit_and,
        show Nat.testBit 2 1 = true from by decide,
        show Nat.testBit 127 1 = true from by decide]
    · simp only [update_zero_and_negative_flags, h0, if_false]
      split
      · simp [Nat.testBit_or, Nat.testBit_and, h0,
          show Nat.testBit 253 1 = false from by decide,
          show Nat.testBit 128 1 = false from by decide]
      · simp [Nat.testBit_and, h0,
          show Nat.testBit 253 1 = false from by decide,
          show Nat.testBit 127 1 = true from by decide]
  · simp only [update_zero_and_negative_flags]
    split
    · rename_i hcc
      rw [(and_128_testBit result).mp hcc]
      simp [Nat.testBit_or, show Nat.testBit 128 7 = true from by decide]
    · rename_i hcc
      have h7 : result.testBit 7 = false := by
        cases hb : result.testBit 7
        · rfl
        · exact absurd ((and_128_testBit result).mpr hb) hcc
      rw [h7]
      simp [Nat.testBit_and, show Nat.testBit 127 7 = false from by decide]
  · intro i h1 h7
    rcases Nat.lt_or_ge i 8 with h8 | h8
    · simp only [update_zero_and_negative_flags]
      split <;> split <;>
        simp [Nat.testBit_or, Nat.testBit_and, testBit_two_ne i h8 h1,
          testBit_128_ne i h8 h7, testBit_253_ne i h8 h1, testBit_127_ne i h8 h7]
    · have hp : (256 : Nat) ≤ 2 ^ i := by
        calc (256 : Nat) = 2 ^ 8 := by norm_num
          _ ≤ 2 ^ i := Nat.pow_le_pow_right (by norm_num) h8
      rw [Nat.testBit_lt_two_pow (lt_of_lt_of_le (update_flags_status_lt cpu result hs) hp),
        Nat.testBit_lt_two_pow (lt_of_lt_of_le hs hp)]

/-- Witness for C5 at a concrete result and status byte (and a sample
untouched bit index). -/
theorem update_flags_bits_witness :
    ((0x85 : Nat) < 256 ∧ flagCpu.status < 256)
    ∧ ((update_zero_and_negative_flags flagCpu 0x85).status.testBit 1 = true ↔ (0x85 : Nat) = 0)
    ∧ (update_zero_and_negative_flags flagCpu 0x85).status.testBit 7 = (0x85 : Nat).testBit 7
    ∧ (update_zero_and_negative_flags flagCpu 0x85).status.testBit 0
        = flagCpu.status.testBit 0 :=
  ⟨⟨by decide, by decide⟩,
   (update_flags_bits flagCpu 0x85 (by decide) (by decide)).1,
   (update_flags_bits flagCpu 0x85 (by decide) (by decide)).2.1,
   (update_flags_bits flagCpu 0x85 (by decide) (by decide)).2.2 0 (by decide) (by decide)⟩

/- Error-shape lemmas for the address resolver. -/

theorem mem_read_ne_unsupported (cpu : CPU) (a : Nat) (m : AddressingMode) :
    mem_read cpu a ≠ .error (.unsupportedMode m) := by
  unfold mem_read
  split <;> simp

theorem mem_read_u16_ne_unsupported (cpu : CPU) (p : Nat) (m : AddressingMode) :
    mem_read_u16 cpu p ≠ .error (.unsupportedMode m) := by
  unfold mem_read_u16
  split
  · rename_i f heq
    intro hc
    injection hc with hf
    subst hf
    exact mem_read_ne_unsupported cpu p m heq
  · split
    · rename_i f heq
      intro hc
      injection hc with hf
      subst hf
      exact mem_read_ne_unsupported cpu (p + 1) m heq
    · simp

/-- C8: resolving an operand address under NoneAddressing is the fatal
unsupported-mode condition reporting the mode, and no other addressing
mode ever signals that condition. -/
theorem none_addressing_only_fatal (cpu : CPU) (mode : AddressingMode) :
    get_operand_address cpu .NoneAddressing = .error (.unsupportedMode .NoneAddressing)
    ∧ (mode ≠ .NoneAddressing →
        ∀ m, get_operand_address cpu mode ≠ .error (.unsupportedMode m)) := by
  refine ⟨rfl, fun hne m hc => ?_⟩
  cases mode
  case NoneAddressing => exact hne rfl
  all_goals
    simp only [get_operand_address] at hc
  case Absolute => exact mem_read_u16_ne_unsupported cpu cpu.program_counter m hc
  all_goals
    repeat' split at hc
  all_goals
    first
    | exact Except.noConfusion hc
    | (injection hc with hf
       subst hf
       first
       | exact mem_read_ne_unsupported _ _ _ (by assumption)
       | exact mem_read_u16_ne_unsupported _ _ _ (by assumption))

/-- Witness for C8: resolution at a concrete machine, with Immediate as a
sample non-NoneAddressing mode. -/
theorem none_addressing_only_fatal_witness :
    (AddressingMode.Immediate ≠ AddressingMode.NoneAddressing)
    ∧ get_operand_address CPU.new .NoneAddressing
        = .error (.unsupportedMode .NoneAddressing)
    ∧ get_operand_address CPU.new .Immediate ≠ .error (.unsupportedMode .Immediate) :=
  ⟨by decide, (none_addressing_only_fatal CPU.new .Immediate).1,
   (none_addressing_only_fatal CPU.new .Immediate).2 (by decide) .Immediate⟩

/-- Every opcode the table knows has byte length at least one. -/
theorem opcodes_len_pos {code : Nat} {meta : OpCode}
    (h : OPCODES_MAP code = some meta) : 1 ≤ meta.len := by
  unfold OPCODES_MAP at h
  split at h <;>
    first
    | exact Option.noConfusion h
    | (injection h with h1; subst h1; decide)

/-- C2: in one iteration of `run` the program counter is advanced by one
immediately after the opcode fetch (visible in the state the handler runs
on), then by `len - 1` exactly when the handler left it at the recorded
post-fetch value; consequently, when the handler did not move the program
counter, the whole cycle advances it by exactly the instruction length. -/
theorem run_cycle_advances_pc (cpu : CPU) (code : Nat) (meta : OpCode) (res : CPU)
    (h1 : mem_read cpu cpu.program_counter = .ok code)
    (h2 : OPCODES_MAP code = some meta)
    (h3 : dispatch code meta.mode
        { cpu with program_counter := (cpu.program_counter + 1) % 65536 }
        = .ok (.next res)) :
    step cpu = .cont
      (if (cpu.program_counter + 1) % 65536 = res.program_counter
       then { res with program_counter := (res.program_counter + (meta.len - 1)) % 65536 }
       else res)
    ∧ (res.program_counter = (cpu.program_counter + 1) % 65536 →
        step cpu = .cont
          { res with program_counter := (cpu.program_counter + meta.len) % 65536 }) := by
  have hstep : step cpu = .cont
      (if (cpu.program_counter + 1) % 65536 = res.program_counter
       then { res with program_counter := (res.program_counter + (meta.len - 1)) % 65536 }
       else res) := by
    simp only [step, h1, h2, h3]
    split <;> rfl
  refine ⟨hstep, fun hpc => ?_⟩
  rw [hstep, if_pos hpc.symm]
  have hlen := opcodes_len_pos h2
  have hA : (res.program_counter + (meta.len - 1)) % 65536
      = (cpu.program_counter + meta.len) % 65536 := by
    rw [hpc, Nat.mod_add_mod]
    congr 1
    omega
  rw [hA]

/-- Concrete machine used to witness the cycle/program-counter theorem:
an INX opcode byte everywhere. -/
def inxCpu : CPU := { CPU.new with memory := fun _ => 0xE8 }

/-- Witness for C2 at `inxCpu`: the INX handler does not move the program
counter, and the cycle advances it by the instruction length 1. -/
theorem run_cycle_advances_pc_witness :
    (mem_read inxCpu inxCpu.program_counter = .ok 0xE8
     ∧ OPCODES_MAP 0xE8 = some ⟨0xE8, 1, AddressingMode.NoneAddressing⟩
     ∧ dispatch 0xE8 AddressingMode.NoneAddressing
         { inxCpu with program_counter := (inxCpu.program_counter + 1) % 65536 }
         = .ok (.next (inx { inxCpu with
             program_counter := (inxCpu.program_counter + 1) % 65536 })))
    ∧ step inxCpu = .cont
        { inx { inxCpu with program_counter := (inxCpu.program_counter + 1) % 65536 } with
          program_counter := (inxCpu.program_counter + 1) % 65536 } :=
  ⟨⟨rfl, rfl, rfl⟩,
   (run_cycle_advances_pc inxCpu 0xE8 ⟨0xE8, 1, .NoneAddressing⟩
      (inx { inxCpu with program_counter := (inxCpu.program_counter + 1) % 65536 })
      rfl rfl rfl).2 rfl⟩

/- Status-preservation lemmas for the store path. -/

theorem mem_write_status {cpu : CPU} {a d : Nat} {c : CPU}
    (h : mem_write cpu a d = .ok c) : c.status = cpu.status := by
  unfold mem_write at h
  split at h
  · injection h with h1
    subst h1
    rfl
  · exact Except.noConfusion h

theorem sta_status {cpu : CPU} {mode : AddressingMode} {c : CPU}
    (h : sta cpu mode = .ok c) : c.status = cpu.status := by
  unfold sta at h
  split at h
  · exact Except.noConfusion h
  · exact mem_write_status h

theorem dispatch_sta_status {code : Nat} {mode : AddressingMode} {c c2 : CPU}
    (h2 : code = 0x85 ∨ code = 0x95 ∨ code = 0x8d ∨ code = 0x9d ∨ code = 0x99
          ∨ code = 0x81 ∨ code = 0x91)
    (h : dispatch code mode c = .ok (.next c2)) : c2.status = c.status := by
  rcases h2 with rfl | rfl | rfl | rfl | rfl | rfl | rfl <;>
    (simp only [dispatch] at h
     split at h
     · exact Except.noConfusion h
     · injection h with h4
       injection h4 with h5
       subst h5
       exact sta_status (by assumption))

/-- Whenever one loop iteration continues normally, the final status is
the status the dispatched handler produced. -/
theorem step_cont_status (cpu res : CPU) (h3 : step cpu = .cont res)
    (hpres : ∀ code opcode c2, mem_read cpu cpu.program_counter = .ok code →
        OPCODES_MAP code = some opcode →
        dispatch code opcode.mode
          { cpu with program_counter := (cpu.program_counter + 1) % 65536 }
          = .ok (.next c2) →
        c2.status = cpu.status) :
    res.status = cpu.status := by
  simp only [step] at h3
  split at h3
  · exact StepResult.noConfusion h3
  · rename_i code heq1
    split at h3
    · exact StepResult.noConfusion h3
    · rename_i opcode heq2
      split at h3
      · exact StepResult.noConfusion h3
      · exact StepResult.noConfusion h3
      · rename_i c heq3
        have hcs := hpres code opcode c heq1 heq2 heq3
        split at h3 <;> (injection h3 with h5; subst h5; exact hcs)

/-- C10: executing a store-accumulator (STA) instruction — any opcode of
its seven addressing-mode variants — through one loop iteration leaves the
status register unchanged: the handler writes the accumulator and invokes
no flag update. -/
theorem sta_frame_status (cpu : CPU) (code : Nat) (res : CPU)
    (h1 : mem_read cpu cpu.program_counter = .ok code)
    (h2 : code = 0x85 ∨ code = 0x95 ∨ code = 0x8d ∨ code = 0x9d ∨ code = 0x99
          ∨ code = 0x81 ∨ code = 0x91)
    (h3 : step cpu = .cont res) :
    res.status = cpu.status := by
  refine step_cont_status cpu res h3 ?_
  intro code2 opcode c2 heq1 heq2 heq3
  rw [h1] at heq1
  injection heq1 with hc2
  subst hc2
  have h4 := dispatch_sta_status h2 heq3
  exact h4.trans rfl

/-- Concrete machine used to witness the STA frame theorem: a STA
zero-page opcode byte everywhere, status bits preset. -/
def staCpu : CPU := { CPU.new with memory := fun _ => 0x85, status := 0x55 }

/-- Extracts the continuing CPU from a step outcome. -/
def stepContOf (r : StepResult) (d : CPU) : CPU :=
  match r with
  | .cont c => c
  | _ => d

/-- Witness for C10 at `staCpu`: one STA zero-page cycle leaves the preset
status byte 0x55 intact. -/
theorem sta_frame_status_witness :
    mem_read staCpu staCpu.program_counter = .ok 0x85
    ∧ step staCpu = .cont (stepContOf (step staCpu) CPU.new)
    ∧ (stepContOf (step staCpu) CPU.new).status = staCpu.status :=
  ⟨rfl, rfl,
   sta_frame_status staCpu 0x85 (stepContOf (step staCpu) CPU.new)
     rfl (Or.inl rfl) rfl⟩

end RsNes
